import Mathlib

/-!
Shallow embedding of the fortigate-config-wizard backend
(src/backend/app): the field validators (app/utils/validators.py,
app/utils/auth.py), the tag accessors of the Configuration model
(app/models/configuration.py), the version-number assignment of the
ConfigurationVersion model (app/models/configuration_version.py), and the
configuration CRUD / template routes (app/routes/configs.py,
app/routes/templates.py), together with proofs of the specified
properties.

Python strings are modeled as Lean `String` (a wrapper around
`List Char`); Python `str.strip`, `str.split(sep)`, `str.join` and
`int(...)` are modeled by explicit functions over `List Char` restricted
to ASCII text.  JSON payload dictionaries are modeled by their
`json.dumps` serialization (an opaque `String`), which is faithful for
every property proved here because the routes never inspect the payload.
-/

namespace FGW

/-- ASCII whitespace recognized by Python `str.strip()`. -/
def pyIsSpace (c : Char) : Bool :=
  c = ' ' || c = '\t' || c = '\n' || c = '\r' || c = '\x0b' || c = '\x0c'

/-- Model of Python `str.strip()` on the character list of a string. -/
def pyStrip (l : List Char) : List Char :=
  ((l.dropWhile pyIsSpace).reverse.dropWhile pyIsSpace).reverse

/-- Model of Python `str.split(sep)` for a one-character separator:
splits at every occurrence of the separator and keeps empty pieces,
exactly as Python does for an explicit separator. -/
def splitChar (c : Char) : List Char → List (List Char)
  | [] => [[]]
  | x :: xs =>
    match splitChar c xs with
    | [] => [[]]
    | h :: t => if x = c then [] :: h :: t else (x :: h) :: t

/-- Model of Python `sep.join(pieces)` for a one-character separator. -/
def joinChar (c : Char) : List (List Char) → List Char
  | [] => []
  | [x] => x
  | x :: y :: rest => x ++ c :: joinChar c (y :: rest)

/-- Digit scanner underlying the model of Python `int(str)`: accepts a
non-empty run of ASCII digits in which a single underscore may appear
between two digits (CPython's literal grammar), and returns the decimal
value accumulated onto `acc`. -/
def pyDigitsAux (acc : Nat) (prevDigit : Bool) : List Char → Option Nat
  | [] => if prevDigit then some acc else none
  | c :: cs =>
    if c.isDigit then pyDigitsAux (10 * acc + (c.toNat - 48)) true cs
    else if c = '_' then
      if prevDigit then
        match cs with
        | d :: _ => if d.isDigit then pyDigitsAux acc false cs else none
        | [] => none
      else none
    else none

/-- Value of a digit string per Python's integer literal grammar. -/
def pyDigits? (l : List Char) : Option Nat :=
  pyDigitsAux 0 false l

/-- Model of Python `int(s)` on ASCII text: surrounding whitespace is
stripped, an optional single sign is consumed, and the remainder must be
a digit run; `none` models the `ValueError` raised otherwise. -/
def pyInt? (l : List Char) : Option Int :=
  match pyStrip l with
  | [] => none
  | c :: rest =>
    if c = '+' then (pyDigits? rest).map (fun n => (n : Int))
    else if c = '-' then (pyDigits? rest).map (fun n => -(n : Int))
    else (pyDigits? (c :: rest)).map (fun n => (n : Int))

/-- The ASCII digit character of `d` (meaningful for `d < 10`). -/
def digitCh (d : Nat) : Char := Char.ofNat (48 + d)

/-- Fuel-driven construction of a decimal numeral; the fuel only makes
the recursion structural so that terms reduce inside the kernel. -/
def decReprAux : Nat → Nat → List Char
  | 0, _ => []
  | fuel + 1, n =>
    if n < 10 then [digitCh n]
    else decReprAux fuel (n / 10) ++ [digitCh (n % 10)]

/-- Decimal numeral of a natural number, as produced by Python
`str(n)` / an f-string. -/
def decRepr (n : Nat) : List Char := decReprAux (n + 1) n

/-- Embedding of `validate_port` (validators.py, lines 52-73) on string
input: empty is accepted as an optional field, otherwise the string must
parse as an integer in 1..65535; `int` failures are caught and reported
as an invalid-port message. -/
def validate_port (port : String) : Bool × Option String :=
  if port = "" then (true, none)
  else
    match pyInt? port.data with
    | some n =>
      if 1 ≤ n ∧ n ≤ 65535 then (true, none)
      else (false, some ("Port must be between 1 and 65535: " ++ port))
    | none => (false, some ("Invalid port number: " ++ port))

/-- The two-sided branch of `validate_port_range`: each side must pass
`validate_port`, then the sides are converted with `int` (outside any
try/except — the conversion of an empty side raises) and compared. -/
def portRangePair (s : String) (p1 p2 : List Char) : Except String (Bool × Option String) :=
  if ¬ (validate_port ⟨p1⟩).1 then .ok (false, (validate_port ⟨p1⟩).2)
  else if ¬ (validate_port ⟨p2⟩).1 then .ok (false, (validate_port ⟨p2⟩).2)
  else
    match pyInt? p1, pyInt? p2 with
    | some a, some b =>
      if a > b then
        .ok (false, some ("Port range start must be less than or equal to end: " ++ s))
      else .ok (true, none)
    | _, _ => .error "ValueError: invalid literal for int() with base 10"

/-- Embedding of `validate_port_range` (validators.py, lines 76-109).
The `Except` layer records that the `int(parts[0]) > int(parts[1])`
comparison is performed outside any try/except: when either side fails
to parse there (only possible for an empty side, since `validate_port`
accepts the empty string), the Python function raises an uncaught
`ValueError`, modeled as `.error`. -/
def validate_port_range (s : String) : Except String (Bool × Option String) :=
  if s = "" then .ok (true, none)
  else if '-' ∈ s.data then
    match splitChar '-' s.data with
    | [p1, p2] => portRangePair s p1 p2
    | _ => .ok (false, some ("Invalid port range format: " ++ s))
  else .ok (validate_port s)

/-- ASCII model of Python `str.isalnum()` on a single character. -/
def pyCharIsAlnum (c : Char) : Bool :=
  c.isAlpha || c.isDigit

/-- ASCII model of Python `str.isalnum()`: true exactly on non-empty
all-alphanumeric text. -/
def pyIsAlnum (l : List Char) : Bool :=
  !l.isEmpty && l.all pyCharIsAlnum

/-- Embedding of `validate_username` (auth.py, lines 94-113): length
3..80, and the string with all underscores and hyphens removed must
satisfy `isalnum` (hence must be non-empty). -/
def validate_username (username : String) : Bool × Option String :=
  if username.length < 3 then
    (false, some "Username must be at least 3 characters long")
  else if username.length > 80 then
    (false, some "Username must be less than 80 characters")
  else if ¬ pyIsAlnum ((username.data.filter (fun c => c ≠ '_')).filter (fun c => c ≠ '-')) then
    (false, some "Username can only contain letters, numbers, hyphens, and underscores")
  else (true, none)

/-- The fixed enumeration of configuration types (validators.py,
lines 211-223). -/
def valid_types : List String :=
  ["ipsec", "sdwan", "firewall", "interface", "ha", "saml",
   "routing", "dns", "dhcp", "vpn", "other"]

/-- Embedding of `validate_config_type` (validators.py, lines 201-228). -/
def validate_config_type (config_type : String) : Bool × Option String :=
  if config_type ∈ valid_types then (true, none)
  else (false, some ("Invalid configuration type. Must be one of: ipsec, sdwan, firewall, interface, ha, saml, routing, dns, dhcp, vpn, other"))

/-- A dynamically-typed Python value as far as `validate_tags` and the
tag-storing routes can observe one: the JSON-decoded request field may
be absent/None, a string, a list of strings, a number, or a boolean. -/
inductive PyVal where
  | vNone
  | vStr (s : String)
  | vList (l : List String)
  | vInt (n : Int)
  | vBool (b : Bool)
deriving Repr, DecidableEq

/-- Python truthiness of a `PyVal`. -/
def PyVal.truthy : PyVal → Bool
  | .vNone => false
  | .vStr s => !(s == "")
  | .vList l => !l.isEmpty
  | .vInt n => !(n == 0)
  | .vBool b => b

/-- The per-tag length loop of `validate_tags`: reports the first tag
longer than 50 characters. -/
def tagsLenCheck : List String → Bool × Option String
  | [] => (true, none)
  | t :: rest =>
    if t.length > 50 then (false, some ("Tag too long (max 50 characters): " ++ t))
    else tagsLenCheck rest

/-- Embedding of `validate_tags` (validators.py, lines 231-254): any
falsy input is accepted; a string is split on commas and each piece
stripped; the result must be a list whose members are all at most 50
characters long. -/
def validate_tags (tags : PyVal) : Bool × Option String :=
  if ¬ tags.truthy then (true, none)
  else
    let norm : PyVal :=
      match tags with
      | .vStr s => .vList ((splitChar ',' s.data).map (fun t => (⟨pyStrip t⟩ : String)))
      | v => v
    match norm with
    | .vList l => tagsLenCheck l
    | _ => (false, some "Tags must be a list or comma-separated string")

/-- Embedding of `Configuration.set_tags_list` (configuration.py, lines
67-74): strips each tag, drops the ones that strip to empty, and joins
the rest with commas into the text column. -/
def set_tags_list (tags_list : List String) : String :=
  ⟨joinChar ',' ((tags_list.map (fun t => pyStrip t.data)).filter (fun t => !t.isEmpty))⟩

/-- Embedding of `Configuration.get_tags_list` (configuration.py, lines
58-65): an empty (falsy) column yields the empty list, otherwise the
column is split on commas and each piece stripped. -/
def get_tags_list (tags : String) : List String :=
  if tags = "" then []
  else (splitChar ',' tags.data).map (fun t => (⟨pyStrip t⟩ : String))

/-- A row of the `configurations` table (configuration.py).  Timestamps
are modeled by a logical clock (`Nat`); the JSON payload column
`data_json` holds the `json.dumps` serialization. -/
structure Configuration where
  id : Nat
  user_id : Nat
  config_type : String
  name : String
  description : String
  data_json : String
  tags : String
  is_template : Bool
  created_at : Nat
  updated_at : Nat
deriving Repr, DecidableEq

/-- A row of the `configuration_versions` table
(configuration_version.py). -/
structure ConfigurationVersion where
  config_id : Nat
  version : Nat
  data_json : String
  change_description : String
  created_by : Nat
deriving Repr, DecidableEq

/-- The `details` JSON blob written by the configuration and template
routes, modeled per writing site. -/
inductive AuditDetails where
  | createDetails (name : String) (config_type : String)
  | updateDetails (name : String) (data_changed : Bool)
  | deleteDetails (name : String)
  | fromTemplateDetails (template_id : Nat) (template_name : String)
deriving Repr, DecidableEq

/-- A row of the `audit_log` table (audit_log.py), restricted to the
fields the configuration routes write. -/
structure AuditEntry where
  user_id : Nat
  action : String
  resource_type : String
  resource_id : Option Nat
  details : Option AuditDetails
deriving Repr, DecidableEq

/-- The persistent store visible to the configuration routes: the two
tables, the audit log, the autoincrement counter for configuration ids,
and the logical clock used for timestamps. -/
structure DBState where
  configs : List Configuration
  versions : List ConfigurationVersion
  auditLog : List AuditEntry
  nextConfigId : Nat
  now : Nat
deriving Repr, DecidableEq

/-- The HTTP status a route handler resolves to. -/
inductive ApiStatus where
  | ok200
  | created201
  | badRequest400
  | forbidden403
  | notFound404
  | unprocessable422
deriving Repr, DecidableEq

/-- Model of `db.session.get(Configuration, config_id)`: primary-key
lookup. -/
def findConfig (st : DBState) (config_id : Nat) : Option Configuration :=
  st.configs.find? (fun c => c.id == config_id)

/-- The version numbers present for a given `config_id` in a list of
`ConfigurationVersion` rows. -/
def versionNumsL (vs : List ConfigurationVersion) (config_id : Nat) : List Nat :=
  (vs.filter (fun v => v.config_id == config_id)).map (fun v => v.version)

/-- The SQL `MAX(version)` over the rows of one configuration, with 0
for an empty set (Python's `last_version or 0`). -/
def maxVerL (vs : List ConfigurationVersion) (config_id : Nat) : Nat :=
  (versionNumsL vs config_id).foldr max 0

/-- Embedding of `ConfigurationVersion.get_next_version_number`
(configuration_version.py, lines 78-93): `(max existing or 0) + 1`. -/
def get_next_version_number (st : DBState) (config_id : Nat) : Nat :=
  maxVerL st.versions config_id + 1

/-- The request body of `POST /api/configs`.  `none` in `name`,
`config_type` and `data` models an absent or falsy field (the route
tests them with `if not data.get(...)`); `tags` defaults to the empty
list and `is_template` to `False`. -/
structure CreateBody where
  name : Option String
  config_type : Option String
  description : Option String
  data : Option String
  tags : PyVal
  is_template : Bool
deriving Repr, DecidableEq

/-- Python truthiness of an optional string field. -/
def strTruthy : Option String → Bool
  | none => false
  | some s => !(s == "")

/-- Stringification applied when a non-list, non-string value is
assigned to the `tags` text column; such a value is only reachable when
it is falsy (a truthy one fails `validate_tags` first). -/
def pyValToString : PyVal → String
  | .vNone => "None"
  | .vStr s => s
  | .vList _ => ""
  | .vInt n => toString n
  | .vBool b => if b then "True" else "False"

/-- The value stored into the `tags` column by the create route: a list
goes through `set_tags_list`, any other truthy value is assigned
directly; a falsy `tags` field leaves the column empty. -/
def tagsColumnOfCreate (tags : PyVal) : String :=
  if tags.truthy then
    match tags with
    | .vList l => set_tags_list l
    | v => pyValToString v
  else ""

/-- Embedding of `create_configuration` (configs.py, lines 92-195):
required-field checks, config-type and tags validation, insertion of the
record together with `ConfigurationVersion` number 1 described
"Initial version", and an audit entry with action `create`. -/
def create_configuration (st : DBState) (caller : Nat) (body : CreateBody) :
    ApiStatus × DBState :=
  if ¬ strTruthy body.name then (.badRequest400, st)
  else if ¬ strTruthy body.config_type then (.badRequest400, st)
  else if body.data.isNone then (.badRequest400, st)
  else
    let name : String := ⟨pyStrip (body.name.getD "").data⟩
    let config_type : String := ⟨pyStrip (body.config_type.getD "").data⟩
    let description : String := ⟨pyStrip (body.description.getD "").data⟩
    let config_data : String := body.data.getD ""
    if ¬ ((validate_config_type config_type).1 && (validate_tags body.tags).1) then
      (.unprocessable422, st)
    else
      let config : Configuration :=
        { id := st.nextConfigId, user_id := caller, config_type := config_type,
          name := name, description := description, data_json := config_data,
          tags := tagsColumnOfCreate body.tags, is_template := body.is_template,
          created_at := st.now, updated_at := st.now }
      let ver : ConfigurationVersion :=
        { config_id := st.nextConfigId, version := 1, data_json := config_data,
          change_description := "Initial version", created_by := caller }
      let entry : AuditEntry :=
        { user_id := caller, action := "create", resource_type := "configuration",
          resource_id := some st.nextConfigId,
          details := some (.createDetails name config_type) }
      (.created201,
        { st with configs := config :: st.configs,
                  versions := ver :: st.versions,
                  auditLog := entry :: st.auditLog,
                  nextConfigId := st.nextConfigId + 1,
                  now := st.now + 1 })

/-- The request body of `PUT /api/configs/{id}`: a field is `some`
exactly when its key is present in the JSON body
(`if 'name' in data: ...`). -/
structure UpdatePatch where
  name : Option String
  description : Option String
  tags : Option PyVal
  is_template : Option Bool
  data : Option String
  change_description : Option String
deriving Repr, DecidableEq

/-- An all-absent patch models a falsy `request.get_json()` (the route
answers 400 `No data provided` before looking the record up). -/
def UpdatePatch.isEmpty (p : UpdatePatch) : Bool :=
  p.name.isNone && p.description.isNone && p.tags.isNone &&
  p.is_template.isNone && p.data.isNone && p.change_description.isNone

/-- True when the patch touches at least one mapped column, so that the
`onupdate` hook refreshes `updated_at`. -/
def UpdatePatch.touchesColumns (p : UpdatePatch) : Bool :=
  p.name.isSome || p.description.isSome || p.tags.isSome ||
  p.is_template.isSome || p.data.isSome

/-- The value stored into the `tags` column by the update route for a
present `tags` field (already validated). -/
def tagsColumnOfUpdate : PyVal → String
  | .vList l => set_tags_list l
  | .vStr s => s
  | v => pyValToString v

/-- The field-by-field mutation `update_configuration` performs on the
looked-up record.  The Python route applies the present fields
sequentially; the fields being disjoint, the net record is this
simultaneous update. -/
def applyPatch (c : Configuration) (p : UpdatePatch) (now : Nat) : Configuration :=
  { c with
    name := match p.name with
      | some n => ⟨pyStrip n.data⟩
      | none => c.name,
    description := match p.description with
      | some d => ⟨pyStrip d.data⟩
      | none => c.description,
    tags := match p.tags with
      | some tv => tagsColumnOfUpdate tv
      | none => c.tags,
    is_template := p.is_template.getD c.is_template,
    data_json := p.data.getD c.data_json,
    updated_at := if p.touchesColumns then now else c.updated_at }

/-- Embedding of `update_configuration` (configs.py, lines 226-320):
empty-body check, lookup, ownership check, tags validation (a failure
answers 422 with nothing committed), partial field update, a new
version numbered `get_next_version_number` exactly when `data` is
present, and an audit entry whose details record `data_changed`. -/
def update_configuration (st : DBState) (caller config_id : Nat) (patch : UpdatePatch) :
    ApiStatus × DBState :=
  if patch.isEmpty then (.badRequest400, st)
  else
    match findConfig st config_id with
    | none => (.notFound404, st)
    | some config =>
      if config.user_id ≠ caller then (.forbidden403, st)
      else if (match patch.tags with
               | some tv => !(validate_tags tv).1
               | none => false) then (.unprocessable422, st)
      else
        let c2 := applyPatch config patch st.now
        let newVersions : List ConfigurationVersion :=
          match patch.data with
          | some d =>
            { config_id := config_id,
              version := get_next_version_number st config_id,
              data_json := d,
              change_description := patch.change_description.getD "Configuration updated",
              created_by := caller } :: st.versions
          | none => st.versions
        let entry : AuditEntry :=
          { user_id := caller, action := "update",
            resource_type := "configuration", resource_id := some config_id,
            details := some (.updateDetails c2.name patch.data.isSome) }
        (.ok200,
          { st with
            configs := st.configs.map (fun c => if c.id == config_id then c2 else c),
            versions := newVersions,
            auditLog := entry :: st.auditLog,
            now := st.now + 1 })

/-- Embedding of `delete_configuration` (configs.py, lines 323-365):
lookup, ownership check, cascade deletion of the record and its
versions, and an audit entry capturing the pre-deletion name. -/
def delete_configuration (st : DBState) (caller config_id : Nat) :
    ApiStatus × DBState :=
  match findConfig st config_id with
  | none => (.notFound404, st)
  | some config =>
    if config.user_id ≠ caller then (.forbidden403, st)
    else
      let entry : AuditEntry :=
        { user_id := caller, action := "delete",
          resource_type := "configuration", resource_id := some config_id,
          details := some (.deleteDetails config.name) }
      (.ok200,
        { st with
          configs := st.configs.filter (fun c => !(c.id == config_id)),
          versions := st.versions.filter (fun v => !(v.config_id == config_id)),
          auditLog := entry :: st.auditLog,
          now := st.now + 1 })

/-- Embedding of `get_configuration` (configs.py, lines 198-223):
lookup, then ownership check, then the record. -/
def get_configuration (st : DBState) (caller config_id : Nat) :
    ApiStatus × Option Configuration :=
  match findConfig st config_id with
  | none => (.notFound404, none)
  | some config =>
    if config.user_id ≠ caller then (.forbidden403, none)
    else (.ok200, some config)

/-- Embedding of `get_configuration_versions` (configs.py, lines
368-395): lookup, ownership check, then the record's versions ordered
by version number descending (the relationship's `order_by`). -/
def get_configuration_versions (st : DBState) (caller config_id : Nat) :
    ApiStatus × Option (List ConfigurationVersion) :=
  match findConfig st config_id with
  | none => (.notFound404, none)
  | some config =>
    if config.user_id ≠ caller then (.forbidden403, none)
    else
      (.ok200, some ((st.versions.filter (fun v => v.config_id == config_id)).mergeSort
        (fun a b => decide (b.version ≤ a.version))))

/-- Embedding of `get_configuration_version` (configs.py, lines
398-432): lookup, ownership check, then the row with the requested
version number, 404 when that row is absent. -/
def get_configuration_version (st : DBState) (caller config_id version_number : Nat) :
    ApiStatus × Option ConfigurationVersion :=
  match findConfig st config_id with
  | none => (.notFound404, none)
  | some config =>
    if config.user_id ≠ caller then (.forbidden403, none)
    else
      match st.versions.find? (fun v => v.config_id == config_id && v.version == version_number) with
      | none => (.notFound404, none)
      | some v => (.ok200, some v)

/-- Embedding of `list_templates` (templates.py, lines 19-34): every
configuration with `is_template=True`, with no owner filter, ordered by
`updated_at` descending. -/
def list_templates (st : DBState) : List Configuration :=
  (st.configs.filter (fun c => c.is_template)).mergeSort
    (fun a b => decide (b.updated_at ≤ a.updated_at))

/-- Embedding of `create_from_template` (templates.py, lines 37-103):
lookup, template-flag check, copy of type/data/tags into a fresh
non-template record owned by the caller, version 1, and an audit
entry. -/
def create_from_template (st : DBState) (caller template_id : Nat) :
    ApiStatus × DBState :=
  match findConfig st template_id with
  | none => (.notFound404, st)
  | some template =>
    if ¬ template.is_template then (.badRequest400, st)
    else
      let newC : Configuration :=
        { id := st.nextConfigId, user_id := caller,
          config_type := template.config_type,
          name := template.name ++ " - New",
          description := "Created from template: " ++ template.name,
          data_json := template.data_json,
          tags := template.tags,
          is_template := false, created_at := st.now, updated_at := st.now }
      let ver : ConfigurationVersion :=
        { config_id := st.nextConfigId, version := 1,
          data_json := template.data_json,
          change_description := "Created from template \"" ++ template.name ++ "\"",
          created_by := caller }
      let entry : AuditEntry :=
        { user_id := caller, action := "create_from_template",
          resource_type := "configuration", resource_id := some st.nextConfigId,
          details := some (.fromTemplateDetails template_id template.name) }
      (.created201,
        { st with configs := newC :: st.configs,
                  versions := ver :: st.versions,
                  auditLog := entry :: st.auditLog,
                  nextConfigId := st.nextConfigId + 1,
                  now := st.now + 1 })

/-- One client request against the configuration store. -/
inductive Op where
  | create (caller : Nat) (body : CreateBody)
  | update (caller : Nat) (config_id : Nat) (patch : UpdatePatch)
  | delete (caller : Nat) (config_id : Nat)
  | fromTemplate (caller : Nat) (template_id : Nat)

/-- The state reached after a request (the response is discarded). -/
def stepOp (st : DBState) : Op → DBState
  | .create caller body => (create_configuration st caller body).2
  | .update caller config_id patch => (update_configuration st caller config_id patch).2
  | .delete caller config_id => (delete_configuration st caller config_id).2
  | .fromTemplate caller template_id => (create_from_template st caller template_id).2

/-- The empty store a fresh deployment starts from. -/
def initState : DBState :=
  { configs := [], versions := [], auditLog := [], nextConfigId := 1, now := 0 }

/-- The store reached by a sequence of requests from the empty store. -/
def run (ops : List Op) : DBState :=
  ops.foldl stepOp initState

/-- Per-configuration contiguity: for every `config_id`, the version
numbers on file are pairwise distinct and are exactly 1..max. -/
def ContiguousFrom1 (vs : List ConfigurationVersion) : Prop :=
  ∀ config_id, (versionNumsL vs config_id).Nodup ∧
    ∀ k, k ∈ versionNumsL vs config_id ↔ (1 ≤ k ∧ k ≤ maxVerL vs config_id)

/-- Internal well-formedness of the store: ids are below the
autoincrement counter, every version row points below it too, and the
version numbers are contiguous. -/
def StateWF (st : DBState) : Prop :=
  (∀ c ∈ st.configs, c.id < st.nextConfigId) ∧
  (∀ v ∈ st.versions, v.config_id < st.nextConfigId) ∧
  ContiguousFrom1 st.versions

/-- A concrete configuration row used to instantiate theorems. -/
def sampleConfig : Configuration :=
  { id := 1, user_id := 1, config_type := "ipsec", name := "T1", description := "",
    data_json := "x", tags := "", is_template := false, created_at := 0, updated_at := 0 }

/-- A concrete template row owned by user 1. -/
def sampleTemplate : Configuration :=
  { id := 2, user_id := 1, config_type := "ipsec", name := "TT", description := "",
    data_json := "x", tags := "", is_template := true, created_at := 0, updated_at := 0 }

/-- A concrete store holding `sampleConfig` and its initial version. -/
def sampleState : DBState :=
  { configs := [sampleConfig],
    versions := [{ config_id := 1, version := 1, data_json := "x",
                   change_description := "Initial version", created_by := 1 }],
    auditLog := [], nextConfigId := 2, now := 1 }

/-- A concrete store holding `sampleTemplate` and its initial version. -/
def sampleState2 : DBState :=
  { configs := [sampleTemplate],
    versions := [{ config_id := 2, version := 1, data_json := "x",
                   change_description := "Initial version", created_by := 1 }],
    auditLog := [], nextConfigId := 3, now := 1 }

/-- A concrete non-empty patch renaming the record. -/
def samplePatch : UpdatePatch :=
  { name := some "T2", description := none, tags := none, is_template := none,
    data := none, change_description := none }

/-- A concrete patch replacing the data payload. -/
def samplePatch2 : UpdatePatch :=
  { name := none, description := none, tags := none, is_template := none,
    data := some "y", change_description := none }

/-- A concrete create-request body. -/
def sampleBody : CreateBody :=
  { name := some "T1", config_type := some "ipsec", description := some "",
    data := some "x", tags := .vList [], is_template := false }

/-! ### Helper lemmas about the string primitives -/

lemma tagsLenCheck_fst (l : List String) :
    (tagsLenCheck l).1 = true ↔ ∀ t ∈ l, t.length ≤ 50 := by
  induction l with
  | nil => simp [tagsLenCheck]
  | cons t rest ih =>
    by_cases h : t.length > 50
    · simp only [tagsLenCheck, if_pos h]
      constructor
      · intro hc; exact absurd hc (by simp)
      · intro hc
        have := hc t (by simp)
        omega
    · simp only [tagsLenCheck, if_neg h, List.mem_cons]
      constructor
      · intro hc
        intro t2 ht2
        rcases ht2 with rfl | ht2
        · omega
        · exact (ih.1 hc) t2 ht2
      · intro hc
        exact ih.2 (fun t2 ht2 => hc t2 (Or.inr ht2))

lemma pyCharIsAlnum_underscore : pyCharIsAlnum '_' = false := by decide

lemma pyCharIsAlnum_hyphen : pyCharIsAlnum '-' = false := by decide

lemma pyIsAlnum_filter_iff (l : List Char) :
    pyIsAlnum ((l.filter (fun c => c ≠ '_')).filter (fun c => c ≠ '-')) = true ↔
      ((∀ c ∈ l, pyCharIsAlnum c = true ∨ c = '-' ∨ c = '_') ∧
       ∃ c ∈ l, pyCharIsAlnum c = true) := by
  unfold pyIsAlnum
  rw [Bool.and_eq_true, Bool.not_eq_true', List.all_eq_true]
  constructor
  · rintro ⟨hne, hall⟩
    have hne2 : (l.filter (fun c => c ≠ '_')).filter (fun c => c ≠ '-') ≠ [] := by
      intro hnil
      rw [hnil] at hne
      exact absurd hne (by simp)
    constructor
    · intro c hc
      by_cases h1 : c = '-'
      · exact Or.inr (Or.inl h1)
      · by_cases h2 : c = '_'
        · exact Or.inr (Or.inr h2)
        · refine Or.inl (hall c ?_)
          simp only [List.mem_filter, decide_eq_true_eq]
          exact ⟨⟨hc, h2⟩, h1⟩
    · obtain ⟨c, hc⟩ := List.exists_mem_of_ne_nil _ hne2
      simp only [List.mem_filter, decide_eq_true_eq] at hc
      exact ⟨c, hc.1.1, hall c (by simp only [List.mem_filter, decide_eq_true_eq]; exact hc)⟩
  · rintro ⟨hall, c0, hc0, ha0⟩
    have hc0mem : c0 ∈ (l.filter (fun c => c ≠ '_')).filter (fun c => c ≠ '-') := by
      simp only [List.mem_filter, decide_eq_true_eq]
      refine ⟨⟨hc0, ?_⟩, ?_⟩
      · rintro rfl; rw [pyCharIsAlnum_underscore] at ha0; exact absurd ha0 (by simp)
      · rintro rfl; rw [pyCharIsAlnum_hyphen] at ha0; exact absurd ha0 (by simp)
    constructor
    · cases hemp : ((l.filter (fun c => c ≠ '_')).filter (fun c => c ≠ '-')).isEmpty with
      | false => rfl
      | true =>
        rw [List.isEmpty_iff] at hemp
        rw [hemp] at hc0mem
        exact absurd hc0mem (by simp)
    · intro c hc
      simp only [List.mem_filter, decide_eq_true_eq] at hc
      rcases hall c hc.1.1 with h | h | h
      · exact h
      · exact absurd h hc.2
      · exact absurd h hc.1.2

/-! ### Theorems for claim C5 -/

/-- C5 counterexample: the Python value `0` is neither a list nor a
string, yet `validate_tags` accepts it (the leading truthiness check
short-circuits every falsy input), contradicting the claim that every
non-list, non-string input is rejected. -/
theorem validate_tags_falsy_nonlist_accepted :
    (∀ l, PyVal.vInt 0 ≠ PyVal.vList l) ∧ (∀ s, PyVal.vInt 0 ≠ PyVal.vStr s) ∧
    validate_tags (PyVal.vInt 0) = (true, none) :=
  ⟨fun l => by simp, fun s => by simp, rfl⟩

/-- C5 (amended): `validate_tags` accepts every falsy input (absent,
None, empty list or string, but also 0 and False); on a list it accepts
exactly when every element has length at most 50; on a string it
accepts exactly when every comma-separated piece, after stripping, has
length at most 50; and every truthy input that is neither a list nor a
string is rejected. -/
theorem validate_tags_spec :
    (∀ v : PyVal, v.truthy = false → validate_tags v = (true, none)) ∧
    (∀ l : List String,
      (validate_tags (.vList l)).1 = true ↔ ∀ t ∈ l, t.length ≤ 50) ∧
    (∀ s : String,
      (validate_tags (.vStr s)).1 = true ↔
        ∀ t ∈ splitChar ',' s.data, (pyStrip t).length ≤ 50) ∧
    (∀ v : PyVal, v.truthy = true → (∀ l, v ≠ .vList l) → (∀ s, v ≠ .vStr s) →
      (validate_tags v).1 = false) := by
  refine ⟨?_, ?_, ?_, ?_⟩
  · intro v hv
    unfold validate_tags
    rw [if_pos (by simp [hv])]
  · intro l
    by_cases hl : l = []
    · subst hl; simp [validate_tags, PyVal.truthy]
    · have ht : (PyVal.vList l).truthy = true := by
        simp [PyVal.truthy, List.isEmpty_iff, hl]
      unfold validate_tags
      rw [if_neg (by simp [ht])]
      exact tagsLenCheck_fst l
  · intro s
    by_cases hs : s = ""
    · subst hs
      constructor
      · intro _; decide
      · intro _; rfl
    · have ht : (PyVal.vStr s).truthy = true := by
        simp [PyVal.truthy, hs]
      unfold validate_tags
      rw [if_neg (by simp [ht])]
      rw [tagsLenCheck_fst]
      constructor
      · intro h t htmem
        have := h ⟨pyStrip t⟩ (List.mem_map_of_mem _ htmem)
        simpa [String.length] using this
      · intro h t htmem
        rw [List.mem_map] at htmem
        obtain ⟨x, hx, rfl⟩ := htmem
        simpa [String.length] using h x hx
  · intro v hv hnl hns
    cases v with
    | vNone => simp [PyVal.truthy] at hv
    | vStr s => exact absurd rfl (hns s)
    | vList l => exact absurd rfl (hnl l)
    | vInt n =>
      unfold validate_tags
      rw [if_neg (by simp [hv])]
    | vBool b =>
      unfold validate_tags
      rw [if_neg (by simp [hv])]

/-- C5 witness: concrete instances of the amended claim, obtained from
`validate_tags_spec`. -/
theorem validate_tags_spec_witness :
    validate_tags PyVal.vNone = (true, none) ∧ (validate_tags (.vInt 5)).1 = false :=
  ⟨validate_tags_spec.1 PyVal.vNone (by decide),
   validate_tags_spec.2.2.2 (.vInt 5) (by decide)
     (fun l => by simp) (fun s => by simp)⟩

/-! ### Theorems for claim C7 -/

/-- C7 counterexample: the string of three underscores has length in
3..80 and every character in the claimed character set, yet
`validate_username` rejects it, because removing the underscores and
hyphens leaves the empty string, which fails Python's `isalnum`. -/
theorem validate_username_separators_only_rejected :
    ((3 ≤ ("___" : String).length ∧ ("___" : String).length ≤ 80) ∧
      ∀ c ∈ ("___" : String).data, pyCharIsAlnum c = true ∨ c = '-' ∨ c = '_') ∧
    (validate_username "___").1 = false := by
  refine ⟨⟨by decide, ?_⟩, by decide⟩
  intro c hc
  have : c = '_' := by
    have : ("___" : String).data = ['_', '_', '_'] := by decide
    rw [this] at hc
    simpa using hc
  exact Or.inr (Or.inr this)

/-- C7 (amended): `validate_username` accepts exactly the strings of
length 3 to 80 whose characters are all alphanumeric, hyphen or
underscore AND that contain at least one alphanumeric character
(a string made solely of hyphens/underscores is rejected).
Alphanumeric is taken in the ASCII sense of the embedding. -/
theorem validate_username_spec (u : String) :
    (validate_username u).1 = true ↔
      (3 ≤ u.length ∧ u.length ≤ 80 ∧
        (∀ c ∈ u.data, pyCharIsAlnum c = true ∨ c = '-' ∨ c = '_') ∧
        (∃ c ∈ u.data, pyCharIsAlnum c = true)) := by
  unfold validate_username
  by_cases h1 : u.length < 3
  · rw [if_pos h1]
    constructor
    · intro h; exact absurd h (by simp)
    · intro h; omega
  · rw [if_neg h1]
    by_cases h2 : u.length > 80
    · rw [if_pos h2]
      constructor
      · intro h; exact absurd h (by simp)
      · intro h; omega
    · rw [if_neg h2]
      by_cases h3 :
          pyIsAlnum ((u.data.filter (fun c => c ≠ '_')).filter (fun c => c ≠ '-')) = true
      · rw [if_neg (not_not_intro h3)]
        have := (pyIsAlnum_filter_iff u.data).1 h3
        constructor
        · intro _
          exact ⟨by omega, by omega, this.1, this.2⟩
        · intro _; rfl
      · rw [if_pos h3]
        constructor
        · intro h; exact absurd h (by simp)
        · rintro ⟨-, -, hall, hex⟩
          exact absurd ((pyIsAlnum_filter_iff u.data).2 ⟨hall, hex⟩) h3

/-! ### Theorems for claim C9 -/

/-- C9: `validate_port_range` is not total.  On the inputs `"80-"` and
`"-80"` the empty side passes `validate_port` (empty is treated as an
optional field), after which the unguarded `int(parts[i])` in the
start/end comparison raises an uncaught `ValueError` instead of
returning a (valid, error) pair.  The well-formed neighbours behave
normally. -/
theorem validate_port_range_raises_spec :
    validate_port_range "80-" = .error "ValueError: invalid literal for int() with base 10" ∧
    validate_port_range "-80" = .error "ValueError: invalid literal for int() with base 10" ∧
    validate_port_range "80-443" = .ok (true, none) ∧
    validate_port_range "80" = .ok (true, none) :=
  ⟨rfl, rfl, rfl, rfl⟩

/-! ### Split / join / strip lemmas -/

lemma splitChar_ne_nil (c : Char) (l : List Char) : splitChar c l ≠ [] := by
  induction l with
  | nil => simp [splitChar]
  | cons x xs ih =>
    cases h : splitChar c xs with
    | nil => exact absurd h ih
    | cons hd tl =>
      by_cases hx : x = c <;> simp [splitChar, h, hx]

lemma splitChar_not_mem {c : Char} {l : List Char} (h : ∀ x ∈ l, x ≠ c) :
    splitChar c l = [l] := by
  induction l with
  | nil => rfl
  | cons x xs ih =>
    have hxs := ih (fun y hy => h y (List.mem_cons_of_mem _ hy))
    have hx : x ≠ c := h x (List.mem_cons_self _ _)
    simp [splitChar, hxs, hx]

lemma splitChar_append {c : Char} {xs : List Char} (ys : List Char) (h : c ∉ xs) :
    splitChar c (xs ++ c :: ys) = xs :: splitChar c ys := by
  induction xs with
  | nil =>
    cases hys : splitChar c ys with
    | nil => exact absurd hys (splitChar_ne_nil c ys)
    | cons hd tl => simp [splitChar, hys]
  | cons x xs ih =>
    have hx : x ≠ c := fun hc => h (hc ▸ List.mem_cons_self x xs)
    have hxs : c ∉ xs := fun hc => h (List.mem_cons_of_mem _ hc)
    simp [splitChar, ih hxs, hx]

lemma joinChar_ne_nil {c : Char} {ls : List (List Char)} (hne : ls ≠ [])
    (h : ∀ x ∈ ls, x ≠ []) : joinChar c ls ≠ [] := by
  match ls with
  | [] => exact absurd rfl hne
  | [x] => exact h x (by simp)
  | x :: y :: rest => simp [joinChar]

lemma splitChar_join {c : Char} : ∀ (ls : List (List Char)), ls ≠ [] →
    (∀ x ∈ ls, c ∉ x) → splitChar c (joinChar c ls) = ls
  | [], h, _ => absurd rfl h
  | [x], _, h => by
    simp only [joinChar]
    exact splitChar_not_mem (fun y hy hyc => (h x (by simp)) (hyc ▸ hy))
  | x :: y :: rest, _, h => by
    have hx : c ∉ x := h x (by simp)
    have ihres := splitChar_join (y :: rest) (by simp)
      (fun z hz => h z (List.mem_cons_of_mem _ hz))
    simp only [joinChar]
    rw [splitChar_append _ hx, ihres]

lemma dropWhile_eq_self_of_all {p : Char → Bool} {l : List Char}
    (h : ∀ c ∈ l, p c = false) : l.dropWhile p = l := by
  cases l with
  | nil => rfl
  | cons x xs => simp [List.dropWhile_cons, h x (by simp)]

lemma pyStrip_eq_self {l : List Char} (h : ∀ c ∈ l, pyIsSpace c = false) :
    pyStrip l = l := by
  unfold pyStrip
  rw [dropWhile_eq_self_of_all h,
      dropWhile_eq_self_of_all (fun c hc => h c (List.mem_reverse.1 hc))]
  exact List.reverse_reverse l

/-! ### Theorems for claim C8 -/

/-- C8 counterexample: the one-element list holding the empty string is
free of commas, yet it does not round-trip: `set_tags_list` drops tags
that strip to the empty string, so `get_tags_list` returns `[]`. -/
theorem tags_roundtrip_counterexample :
    (∀ t ∈ [("" : String)], ',' ∉ t.data) ∧
    get_tags_list (set_tags_list [""]) ≠ [""] := by
  constructor
  · intro t ht
    rw [List.mem_singleton] at ht
    subst ht
    decide
  · decide

/-- C8 (amended): for every list of tags in which each tag is
non-empty, has no surrounding whitespace (so that Python's `strip` is
the identity on it) and contains no comma, `set_tags_list` followed by
`get_tags_list` returns the original list.  The original claim fails
for tags that are empty or carry surrounding whitespace, which
`set_tags_list` drops or trims. -/
theorem tags_roundtrip_spec (ts : List String)
    (h : ∀ t ∈ ts, t ≠ "" ∧ pyStrip t.data = t.data ∧ ',' ∉ t.data) :
    get_tags_list (set_tags_list ts) = ts := by
  have hdata_ne : ∀ t ∈ ts, t.data ≠ [] := by
    intro t ht hnil
    exact (h t ht).1 (String.ext (by rw [hnil]))
  have hmap : ts.map (fun t => pyStrip t.data) = ts.map String.data :=
    List.map_congr_left (fun t ht => (h t ht).2.1)
  have hfilter :
      (ts.map String.data).filter (fun t => !t.isEmpty) = ts.map String.data := by
    rw [List.filter_eq_self]
    intro x hx
    rw [List.mem_map] at hx
    obtain ⟨t, ht, rfl⟩ := hx
    simpa [List.isEmpty_iff] using hdata_ne t ht
  unfold set_tags_list
  rw [hmap, hfilter]
  by_cases hts : ts = []
  · subst hts; rfl
  · have hmapne : ts.map String.data ≠ [] := by
      simpa using hts
    have hjoin : joinChar ',' (ts.map String.data) ≠ [] := by
      refine joinChar_ne_nil hmapne ?_
      intro x hx
      rw [List.mem_map] at hx
      obtain ⟨t, ht, rfl⟩ := hx
      exact hdata_ne t ht
    have hcommafree : ∀ x ∈ ts.map String.data, ',' ∉ x := by
      intro x hx
      rw [List.mem_map] at hx
      obtain ⟨t, ht, rfl⟩ := hx
      exact (h t ht).2.2
    unfold get_tags_list
    rw [if_neg (fun he => hjoin (congrArg String.data he))]
    rw [show (⟨joinChar ',' (ts.map String.data)⟩ : String).data
          = joinChar ',' (ts.map String.data) from rfl]
    rw [splitChar_join _ hmapne hcommafree, List.map_map]
    have : ∀ t ∈ ts, ((fun l => (⟨pyStrip l⟩ : String)) ∘ String.data) t = t := by
      intro t ht
      show (⟨pyStrip t.data⟩ : String) = t
      rw [(h t ht).2.1]
    rw [List.map_congr_left this]
    simp

/-- C8 witness: a concrete list of clean tags round-trips, via
`tags_roundtrip_spec`. -/
theorem tags_roundtrip_spec_witness :
    get_tags_list (set_tags_list ["alpha", "beta"]) = ["alpha", "beta"] :=
  tags_roundtrip_spec ["alpha", "beta"] (by decide)

/-! ### Decimal numeral lemmas -/

lemma decReprAux_congr : ∀ (f1 f2 n : Nat), n < f1 → n < f2 →
    decReprAux f1 n = decReprAux f2 n := by
  intro f1
  induction f1 with
  | zero => intro f2 n h1 _; omega
  | succ g ih =>
    intro f2 n h1 h2
    cases f2 with
    | zero => omega
    | succ k =>
      by_cases hn : n < 10
      · simp [decReprAux, hn]
      · have hdiv : n / 10 < n := Nat.div_lt_self (by omega) (by omega)
        simp only [decReprAux, if_neg hn]
        rw [ih k (n / 10) (by omega) (by omega)]

lemma decRepr_eq (n : Nat) :
    decRepr n = if n < 10 then [digitCh n]
                else decRepr (n / 10) ++ [digitCh (n % 10)] := by
  show decReprAux (n + 1) n = _
  by_cases hn : n < 10
  · simp [decReprAux, hn]
  · have hdiv : n / 10 < n := Nat.div_lt_self (by omega) (by omega)
    rw [if_neg hn]
    have hstep : decReprAux (n + 1) n = decReprAux n (n / 10) ++ [digitCh (n % 10)] := by
      simp [decReprAux, hn]
    rw [hstep]
    have : decReprAux n (n / 10) = decReprAux (n / 10 + 1) (n / 10) :=
      decReprAux_congr n (n / 10 + 1) (n / 10) (by omega) (by omega)
    rw [this]
    rfl

lemma digitCh_isDigit {d : Nat} (h : d < 10) : (digitCh d).isDigit = true := by
  interval_cases d <;> decide

lemma digitCh_toNat {d : Nat} (h : d < 10) : (digitCh d).toNat - 48 = d := by
  interval_cases d <;> decide

lemma isDigit_facts {c : Char} (h : c.isDigit = true) :
    c ≠ '+' ∧ c ≠ '-' ∧ c ≠ ',' ∧ pyIsSpace c = false := by
  refine ⟨?_, ?_, ?_, ?_⟩
  · rintro rfl; exact absurd h (by decide)
  · rintro rfl; exact absurd h (by decide)
  · rintro rfl; exact absurd h (by decide)
  · cases hs : pyIsSpace c with
    | false => rfl
    | true =>
      exfalso
      unfold pyIsSpace at hs
      simp only [Bool.or_eq_true, decide_eq_true_eq] at hs
      rcases hs with ((((rfl | rfl) | rfl) | rfl) | rfl) | rfl <;>
        exact absurd h (by decide)

lemma decRepr_all_digits (n : Nat) : ∀ c ∈ decRepr n, c.isDigit = true := by
  induction n using Nat.strong_induction_on with
  | _ n ih =>
    rw [decRepr_eq]
    by_cases hn : n < 10
    · rw [if_pos hn]
      intro c hc
      rw [List.mem_singleton] at hc
      subst hc
      exact digitCh_isDigit hn
    · rw [if_neg hn]
      intro c hc
      rcases List.mem_append.1 hc with h1 | h2
      · exact ih (n / 10) (Nat.div_lt_self (by omega) (by omega)) c h1
      · rw [List.mem_singleton] at h2
        subst h2
        exact digitCh_isDigit (Nat.mod_lt _ (by omega))

lemma decRepr_ne_nil (n : Nat) : decRepr n ≠ [] := by
  rw [decRepr_eq]
  by_cases hn : n < 10 <;> simp [hn]

lemma hyphen_not_mem_decRepr (n : Nat) : '-' ∉ decRepr n :=
  fun hm => absurd (decRepr_all_digits n '-' hm) (by decide)

lemma decRepr_foldl (n : Nat) : ∀ acc : Nat,
    (decRepr n).foldl (fun a c => 10 * a + (c.toNat - 48)) acc
      = acc * 10 ^ (decRepr n).length + n := by
  induction n using Nat.strong_induction_on with
  | _ n ih =>
    intro acc
    rw [decRepr_eq]
    by_cases hn : n < 10
    · rw [if_pos hn]
      simp only [List.foldl_cons, List.foldl_nil, List.length_singleton,
        pow_one, digitCh_toNat hn]
      omega
    · rw [if_neg hn]
      rw [List.foldl_append]
      have hd : n / 10 < n := Nat.div_lt_self (by omega) (by omega)
      rw [ih (n / 10) hd acc]
      simp only [List.foldl_cons, List.foldl_nil,
        digitCh_toNat (Nat.mod_lt n (show 0 < 10 by omega)),
        List.length_append, List.length_singleton]
      have hmod : 10 * (n / 10) + n % 10 = n := by omega
      calc 10 * (acc * 10 ^ (decRepr (n / 10)).length + n / 10) + n % 10
          = acc * (10 ^ (decRepr (n / 10)).length * 10)
              + (10 * (n / 10) + n % 10) := by ring
        _ = acc * 10 ^ ((decRepr (n / 10)).length + 1) + n := by
              rw [hmod, pow_succ]

lemma pyDigitsAux_all_digits : ∀ (l : List Char) (acc : Nat) (b : Bool),
    (∀ c ∈ l, c.isDigit = true) → l ≠ [] →
    pyDigitsAux acc b l
      = some (l.foldl (fun a c => 10 * a + (c.toNat - 48)) acc) := by
  intro l
  induction l with
  | nil => intro acc b _ hne; exact absurd rfl hne
  | cons c cs ih =>
    intro acc b hd _
    have hc : c.isDigit = true := hd c (by simp)
    unfold pyDigitsAux
    rw [if_pos hc]
    cases cs with
    | nil => rfl
    | cons d ds =>
      rw [ih _ true (fun x hx => hd x (List.mem_cons_of_mem _ hx)) (by simp)]
      rfl

lemma pyInt?_decRepr (n : Nat) : pyInt? (decRepr n) = some (n : Int) := by
  have hdig := decRepr_all_digits n
  have hne := decRepr_ne_nil n
  have hstrip : pyStrip (decRepr n) = decRepr n :=
    pyStrip_eq_self (fun c hc => (isDigit_facts (hdig c hc)).2.2.2)
  obtain ⟨c, rest, hcr⟩ := List.exists_cons_of_ne_nil hne
  have hc : c.isDigit = true := hdig c (by rw [hcr]; simp)
  have hfacts := isDigit_facts hc
  unfold pyInt?
  rw [hstrip, hcr]
  simp only []
  rw [if_neg hfacts.1, if_neg hfacts.2.1]
  rw [← hcr]
  unfold pyDigits?
  rw [pyDigitsAux_all_digits _ 0 false hdig hne]
  rw [decRepr_foldl n 0]
  simp

/-! ### Port and port-range lemmas -/

lemma string_mk_ne_empty {l : List Char} (h : l ≠ []) : (⟨l⟩ : String) ≠ "" :=
  fun he => h (congrArg String.data he)

lemma validate_port_decRepr {n : Nat} (h1 : 1 ≤ n) (h2 : n ≤ 65535) :
    validate_port ⟨decRepr n⟩ = (true, none) := by
  unfold validate_port
  rw [if_neg (string_mk_ne_empty (decRepr_ne_nil n))]
  rw [show (⟨decRepr n⟩ : String).data = decRepr n from rfl]
  simp only [pyInt?_decRepr]
  rw [if_pos ⟨by exact_mod_cast h1, by exact_mod_cast h2⟩]

lemma validate_port_range_eq_pair {s : String} {p1 p2 : List Char}
    (hne : s ≠ "") (hmem : '-' ∈ s.data)
    (hsplit : splitChar '-' s.data = [p1, p2]) :
    validate_port_range s = portRangePair s p1 p2 := by
  unfold validate_port_range
  rw [if_neg hne, if_pos hmem, hsplit]

lemma decRepr_pair_ne : (decRepr a ++ '-' :: decRepr b) ≠ [] := by
  simp

lemma decRepr_pair_mem : '-' ∈ (decRepr a ++ '-' :: decRepr b) :=
  List.mem_append_right _ (List.mem_cons_self _ _)

lemma decRepr_pair_split :
    splitChar '-' (decRepr a ++ '-' :: decRepr b) = [decRepr a, decRepr b] := by
  rw [splitChar_append _ (hyphen_not_mem_decRepr a)]
  rw [splitChar_not_mem (fun x hx hxc => hyphen_not_mem_decRepr b (by rwa [hxc] at hx))]

lemma validate_port_range_pair_decRepr (a b : Nat) (h1 : 1 ≤ a) (h1b : 1 ≤ b)
    (h2a : a ≤ 65535) (h2b : b ≤ 65535) :
    validate_port_range ⟨decRepr a ++ '-' :: decRepr b⟩ =
      (if (a : Int) > (b : Int) then
        .ok (false, some ("Port range start must be less than or equal to end: "
          ++ (⟨decRepr a ++ '-' :: decRepr b⟩ : String)))
      else .ok (true, none)) := by
  rw [validate_port_range_eq_pair (string_mk_ne_empty decRepr_pair_ne)
    (show '-' ∈ (⟨decRepr a ++ '-' :: decRepr b⟩ : String).data from decRepr_pair_mem)
    (show splitChar '-' (⟨decRepr a ++ '-' :: decRepr b⟩ : String).data
        = [decRepr a, decRepr b] from decRepr_pair_split)]
  unfold portRangePair
  rw [validate_port_decRepr h1 h2a, validate_port_decRepr h1b h2b]
  simp only [pyInt?_decRepr]
  rw [if_neg (by simp), if_neg (by simp)]

/-! ### Theorems for claim C6 -/

/-- C6 counterexample: the empty string is hyphen-free and accepted by
`validate_port_range` (optional-field rule), but it is not a numeric
string for any integer, contradicting the claimed exact
characterization of hyphen-free inputs. -/
theorem validate_port_range_empty_counterexample :
    ('-' ∉ ("" : String).data) ∧ validate_port_range "" = .ok (true, none) ∧
    pyInt? ("" : String).data = none :=
  ⟨by decide, rfl, rfl⟩

/-- C6 (amended): for numerals with `1 <= a <= b <= 65535` the range
string `a-b` is accepted, for `a > b` (both in range) it is rejected
with the start/end ordering message; the empty string is accepted as an
optional field, and a NON-EMPTY hyphen-free string is accepted exactly
when `int` parses it to a value in 1..65535; a string containing a
hyphen that splits into other than two parts is rejected as invalid
format.  The original claim omitted the empty-string exception. -/
theorem validate_port_range_spec :
    (∀ a b : Nat, 1 ≤ a → a ≤ b → b ≤ 65535 →
      validate_port_range ⟨decRepr a ++ '-' :: decRepr b⟩ = .ok (true, none)) ∧
    (∀ a b : Nat, 1 ≤ b → b < a → a ≤ 65535 →
      validate_port_range ⟨decRepr a ++ '-' :: decRepr b⟩ =
        .ok (false, some ("Port range start must be less than or equal to end: "
          ++ (⟨decRepr a ++ '-' :: decRepr b⟩ : String)))) ∧
    validate_port_range "" = .ok (true, none) ∧
    (∀ s : String, s ≠ "" → '-' ∉ s.data →
      validate_port_range s = .ok (validate_port s) ∧
      ((validate_port s).1 = true ↔
        ∃ n : Int, pyInt? s.data = some n ∧ 1 ≤ n ∧ n ≤ 65535)) ∧
    (∀ s : String, '-' ∈ s.data → (splitChar '-' s.data).length ≠ 2 →
      validate_port_range s = .ok (false, some ("Invalid port range format: " ++ s))) := by
  refine ⟨?_, ?_, rfl, ?_, ?_⟩
  · intro a b h1 hab h2
    rw [validate_port_range_pair_decRepr a b h1 (by omega) (by omega) h2]
    rw [if_neg (by exact_mod_cast not_lt.2 hab)]
  · intro a b h1 hba h2
    rw [validate_port_range_pair_decRepr a b (by omega) h1 h2 (by omega)]
    rw [if_pos (by exact_mod_cast hba)]
  · intro s hne hnm
    constructor
    · unfold validate_port_range
      rw [if_neg hne, if_neg hnm]
    · unfold validate_port
      rw [if_neg hne]
      cases hpy : pyInt? s.data with
      | none =>
        simp only []
        constructor
        · intro h; exact absurd h (by simp)
        · rintro ⟨n, hn, -⟩; exact absurd hn (by simp)
      | some n =>
        simp only []
        by_cases hr : 1 ≤ n ∧ n ≤ 65535
        · rw [if_pos hr]
          exact ⟨fun _ => ⟨n, rfl, hr.1, hr.2⟩, fun _ => rfl⟩
        · rw [if_neg hr]
          constructor
          · intro h; exact absurd h (by simp)
          · rintro ⟨m, hm, hm1, hm2⟩
            rw [Option.some_inj] at hm
            subst hm
            exact absurd ⟨hm1, hm2⟩ hr
  · intro s hmem hlen
    have hne : s ≠ "" := by
      intro he
      rw [he] at hmem
      exact absurd hmem (by decide)
    unfold validate_port_range
    rw [if_neg hne, if_pos hmem]
    cases hsp : splitChar '-' s.data with
    | nil => exact absurd hsp (splitChar_ne_nil _ _)
    | cons x xs =>
      cases xs with
      | nil => rfl
      | cons y ys =>
        cases ys with
        | nil =>
          rw [hsp] at hlen
          simp at hlen
        | cons z zs => rfl

/-- C6 witness: concrete instances of the amended claim obtained from
`validate_port_range_spec`. -/
theorem validate_port_range_spec_witness :
    validate_port_range "80-443" = .ok (true, none) ∧
    validate_port_range "443-80" =
      .ok (false, some "Port range start must be less than or equal to end: 443-80") := by
  have h1 := validate_port_range_spec.1 80 443 (by decide) (by decide) (by decide)
  have h2 := validate_port_range_spec.2.1 443 80 (by decide) (by decide) (by decide)
  have e1 : (⟨decRepr 80 ++ '-' :: decRepr 443⟩ : String) = "80-443" := by decide
  have e2 : (⟨decRepr 443 ++ '-' :: decRepr 80⟩ : String) = "443-80" := by decide
  rw [e1] at h1
  rw [e2] at h2
  exact ⟨h1, h2⟩

/-! ### Route-level lemmas -/

lemma findConfig_mem {st : DBState} {cid : Nat} {c : Configuration}
    (h : findConfig st cid = some c) : c ∈ st.configs ∧ c.id = cid := by
  unfold findConfig at h
  have hm := List.mem_of_find?_eq_some h
  have hp := List.find?_some h
  rw [beq_iff_eq] at hp
  exact ⟨hm, hp⟩

/-! ### Theorems for claim C1 -/

/-- C1: for a missing configuration id each of get, update (with a
non-empty body), delete, list-versions and get-version answers 404, for
an existing record owned by someone else each answers 403 with the
store unchanged; the existence check precedes the ownership check, so a
non-owner probing a missing id receives 404, never 403. -/
theorem ownership_after_existence_spec
    (st : DBState) (caller config_id : Nat) (patch : UpdatePatch) (vnum : Nat)
    (hp : patch.isEmpty = false) :
    (findConfig st config_id = none →
      (get_configuration st caller config_id).1 = .notFound404 ∧
      update_configuration st caller config_id patch = (.notFound404, st) ∧
      delete_configuration st caller config_id = (.notFound404, st) ∧
      (get_configuration_versions st caller config_id).1 = .notFound404 ∧
      (get_configuration_version st caller config_id vnum).1 = .notFound404) ∧
    (∀ c, findConfig st config_id = some c → c.user_id ≠ caller →
      (get_configuration st caller config_id).1 = .forbidden403 ∧
      update_configuration st caller config_id patch = (.forbidden403, st) ∧
      delete_configuration st caller config_id = (.forbidden403, st) ∧
      (get_configuration_versions st caller config_id).1 = .forbidden403 ∧
      (get_configuration_version st caller config_id vnum).1 = .forbidden403) := by
  constructor
  · intro hnone
    refine ⟨?_, ?_, ?_, ?_, ?_⟩
    · unfold get_configuration
      rw [hnone]
    · unfold update_configuration
      rw [if_neg (by simp [hp]), hnone]
    · unfold delete_configuration
      rw [hnone]
    · unfold get_configuration_versions
      rw [hnone]
    · unfold get_configuration_version
      rw [hnone]
  · intro c hsome hne
    refine ⟨?_, ?_, ?_, ?_, ?_⟩
    · unfold get_configuration
      rw [hsome]
      simp only []
      rw [if_pos hne]
    · unfold update_configuration
      rw [if_neg (by simp [hp]), hsome]
      simp only []
      rw [if_pos hne]
    · unfold delete_configuration
      rw [hsome]
      simp only []
      rw [if_pos hne]
    · unfold get_configuration_versions
      rw [hsome]
      simp only []
      rw [if_pos hne]
    · unfold get_configuration_version
      rw [hsome]
      simp only []
      rw [if_pos hne]

/-- C1 witness: concrete 404 and 403 instances via
`ownership_after_existence_spec`. -/
theorem ownership_after_existence_spec_witness :
    (get_configuration sampleState 2 7).1 = .notFound404 ∧
    (get_configuration sampleState 2 1).1 = .forbidden403 ∧
    update_configuration sampleState 2 1 samplePatch = (.forbidden403, sampleState) :=
  ⟨((ownership_after_existence_spec sampleState 2 7 samplePatch 3 (by decide)).1
      (by decide)).1,
   ((ownership_after_existence_spec sampleState 2 1 samplePatch 3 (by decide)).2
      sampleConfig (by decide) (by decide)).1,
   ((ownership_after_existence_spec sampleState 2 1 samplePatch 3 (by decide)).2
      sampleConfig (by decide) (by decide)).2.1⟩

/-! ### Theorems for claim C10 -/

/-- C10: a template owned by another user is still Forbidden on the
direct get route; the template flag grants visibility only through the
template listing, where the record does appear. -/
theorem template_direct_get_forbidden_spec
    (st : DBState) (caller config_id : Nat) (c : Configuration)
    (hsome : findConfig st config_id = some c)
    (htemp : c.is_template = true) (hne : c.user_id ≠ caller) :
    (get_configuration st caller config_id).1 = .forbidden403 ∧
    c ∈ list_templates st := by
  constructor
  · unfold get_configuration
    rw [hsome]
    simp only []
    rw [if_pos hne]
  · unfold list_templates
    rw [List.mem_mergeSort, List.mem_filter]
    exact ⟨(findConfig_mem hsome).1, htemp⟩

/-- C10 witness: a concrete cross-owner template get via
`template_direct_get_forbidden_spec`. -/
theorem template_direct_get_forbidden_spec_witness :
    (get_configuration sampleState2 5 2).1 = .forbidden403 ∧
    sampleTemplate ∈ list_templates sampleState2 :=
  template_direct_get_forbidden_spec sampleState2 5 2 sampleTemplate
    (by decide) (by decide) (by decide)

/-! ### Theorems for claim C4 -/

/-- C4: the template listing contains exactly the configurations whose
template flag is set — across all owners, the function reading no
caller identity — ordered by `updated_at` descending. -/
theorem list_templates_spec (st : DBState) :
    (∀ c, c ∈ list_templates st ↔ (c ∈ st.configs ∧ c.is_template = true)) ∧
    (list_templates st).Pairwise (fun a b => b.updated_at ≤ a.updated_at) := by
  constructor
  · intro c
    unfold list_templates
    rw [List.mem_mergeSort, List.mem_filter]
  · unfold list_templates
    refine List.Pairwise.imp ?_
      (List.sorted_mergeSort ?_ ?_ (st.configs.filter (fun c => c.is_template)))
    · intro a b h
      simpa using h
    · intro a b c hab hbc
      simp only [decide_eq_true_eq] at hab hbc ⊢
      omega
    · intro a b
      simp only [Bool.or_eq_true, decide_eq_true_eq]
      omega

/-! ### Theorems for claim C3 -/

/-- C3: an owner's update with a non-empty, tag-valid patch succeeds;
a new version (numbered by `get_next_version_number`, carrying the
provided or default change description) is appended if and only if the
patch contains a `data` field, in which case the record's payload
becomes the patch's data; every field not named in the patch keeps its
previous value; and the audit entry records whether data changed. -/
theorem update_patch_effects_spec
    (st : DBState) (caller config_id : Nat) (patch : UpdatePatch) (c : Configuration)
    (hp : patch.isEmpty = false)
    (hsome : findConfig st config_id = some c)
    (howner : c.user_id = caller)
    (htags : ∀ tv, patch.tags = some tv → (validate_tags tv).1 = true) :
    ∃ st2, update_configuration st caller config_id patch = (.ok200, st2) ∧
      ((patch.data = none → st2.versions = st.versions ∧
          (applyPatch c patch st.now).data_json = c.data_json) ∧
       (∀ d, patch.data = some d →
          st2.versions =
            { config_id := config_id, version := get_next_version_number st config_id,
              data_json := d,
              change_description := patch.change_description.getD "Configuration updated",
              created_by := caller } :: st.versions ∧
          (applyPatch c patch st.now).data_json = d)) ∧
      st2.configs = st.configs.map
        (fun x => if x.id == config_id then applyPatch c patch st.now else x) ∧
      (patch.name = none → (applyPatch c patch st.now).name = c.name) ∧
      (patch.description = none →
        (applyPatch c patch st.now).description = c.description) ∧
      (patch.tags = none → (applyPatch c patch st.now).tags = c.tags) ∧
      (patch.is_template = none →
        (applyPatch c patch st.now).is_template = c.is_template) ∧
      st2.auditLog =
        { user_id := caller, action := "update", resource_type := "configuration",
          resource_id := some config_id,
          details := some (.updateDetails (applyPatch c patch st.now).name
            patch.data.isSome) } :: st.auditLog := by
  have htagcond : (match patch.tags with
      | some tv => !(validate_tags tv).1
      | none => false) = false := by
    cases htv : patch.tags with
    | none => rfl
    | some tv => simp [htags tv htv]
  unfold update_configuration
  rw [if_neg (by simp [hp]), hsome]
  simp only []
  rw [if_neg (by simp [howner]), if_neg (by simp [htagcond])]
  refine ⟨_, rfl, ⟨?_, ?_⟩, rfl, ?_, ?_, ?_, ?_, rfl⟩
  · intro hd
    refine ⟨?_, ?_⟩
    · simp only [hd]
    · simp [applyPatch, hd]
  · intro d hd
    refine ⟨?_, ?_⟩
    · simp only [hd]
    · simp [applyPatch, hd]
  · intro hd
    simp [applyPatch, hd]
  · intro hd
    simp [applyPatch, hd]
  · intro hd
    simp [applyPatch, hd]
  · intro hd
    simp [applyPatch, hd]

/-- C3 witness: a concrete data-bearing owner update via
`update_patch_effects_spec`. -/
theorem update_patch_effects_spec_witness :
    ∃ st2, update_configuration sampleState 1 1 samplePatch2 = (.ok200, st2) := by
  obtain ⟨st2, h1, -⟩ := update_patch_effects_spec sampleState 1 1 samplePatch2
    sampleConfig (by decide) (by decide) (by decide)
    (fun tv htv => Option.noConfusion htv)
  exact ⟨st2, h1⟩

/-! ### Version-number bookkeeping lemmas -/

lemma versionNumsL_cons (v : ConfigurationVersion) (vs : List ConfigurationVersion)
    (cid : Nat) :
    versionNumsL (v :: vs) cid =
      if v.config_id = cid then v.version :: versionNumsL vs cid
      else versionNumsL vs cid := by
  by_cases h : v.config_id = cid <;> simp [versionNumsL, List.filter_cons, h]

lemma le_foldr_max (l : List Nat) : ∀ k ∈ l, k ≤ l.foldr max 0 := by
  induction l with
  | nil => intro k hk; exact absurd hk (by simp)
  | cons x xs ih =>
    intro k hk
    rcases List.mem_cons.1 hk with rfl | hk2
    · simp only [List.foldr_cons]
      exact le_max_left _ _
    · simp only [List.foldr_cons]
      exact le_trans (ih k hk2) (le_max_right _ _)

lemma mem_versionNumsL {vs : List ConfigurationVersion} {w : ConfigurationVersion}
    (hw : w ∈ vs) {cid : Nat} (hcid : w.config_id = cid) :
    w.version ∈ versionNumsL vs cid := by
  unfold versionNumsL
  exact List.mem_map_of_mem _ (List.mem_filter.2 ⟨hw, by simp [hcid]⟩)

lemma versionNumsL_filter_ne (vs : List ConfigurationVersion) {cid cid0 : Nat}
    (h : cid ≠ cid0) :
    versionNumsL (vs.filter (fun v => !(v.config_id == cid0))) cid
      = versionNumsL vs cid := by
  unfold versionNumsL
  rw [List.filter_filter]
  congr 1
  apply List.filter_congr
  intro v _
  by_cases hc : v.config_id = cid
  · simp [hc, h]
  · simp [hc]

lemma versionNumsL_filter_self (vs : List ConfigurationVersion) (cid0 : Nat) :
    versionNumsL (vs.filter (fun v => !(v.config_id == cid0))) cid0 = [] := by
  unfold versionNumsL
  rw [List.filter_filter]
  have hnil : vs.filter (fun v => (v.config_id == cid0) && !(v.config_id == cid0)) = [] := by
    rw [List.filter_eq_nil_iff]
    intro v _
    simp
  rw [hnil]
  rfl

lemma versionNumsL_eq_nil_of_lt {vs : List ConfigurationVersion} {n : Nat}
    (h : ∀ v ∈ vs, v.config_id < n) : versionNumsL vs n = [] := by
  unfold versionNumsL
  have hnil : vs.filter (fun v => v.config_id == n) = [] := by
    rw [List.filter_eq_nil_iff]
    intro v hv
    have := h v hv
    simp only [beq_iff_eq]
    omega
  rw [hnil]
  rfl

lemma contiguous_nil : ContiguousFrom1 [] := by
  intro cid
  constructor
  · exact List.nodup_nil
  · intro k
    constructor
    · intro hk
      exact absurd hk (by simp [versionNumsL])
    · intro hk
      have hm : maxVerL [] cid = 0 := rfl
      rw [hm] at hk
      omega

lemma maxVerL_cons_eq (v : ConfigurationVersion) (vs : List ConfigurationVersion)
    (cid : Nat) :
    maxVerL (v :: vs) cid =
      if v.config_id = cid then max v.version (maxVerL vs cid)
      else maxVerL vs cid := by
  unfold maxVerL
  rw [versionNumsL_cons]
  by_cases h : v.config_id = cid <;> simp [h]

lemma contiguous_cons_next {vs : List ConfigurationVersion} (h : ContiguousFrom1 vs)
    (cid : Nat) (dj cd : String) (cb : Nat) :
    ContiguousFrom1
      ({ config_id := cid, version := maxVerL vs cid + 1,
         data_json := dj, change_description := cd, created_by := cb } :: vs) := by
  intro cid0
  by_cases hc : cid = cid0
  · subst hc
    have hnums : versionNumsL
        ({ config_id := cid, version := maxVerL vs cid + 1, data_json := dj,
           change_description := cd, created_by := cb } :: vs) cid
        = (maxVerL vs cid + 1) :: versionNumsL vs cid := by
      rw [versionNumsL_cons, if_pos rfl]
    have hmax : maxVerL
        ({ config_id := cid, version := maxVerL vs cid + 1, data_json := dj,
           change_description := cd, created_by := cb } :: vs) cid
        = maxVerL vs cid + 1 := by
      rw [maxVerL_cons_eq, if_pos rfl]
      exact Nat.max_eq_left (Nat.le_succ _)
    constructor
    · rw [hnums]
      rw [List.nodup_cons]
      refine ⟨?_, (h cid).1⟩
      intro hmem
      have hle := le_foldr_max _ _ hmem
      have heq : (versionNumsL vs cid).foldr max 0 = maxVerL vs cid := rfl
      omega
    · intro k
      rw [hnums, hmax, List.mem_cons]
      have hiff := (h cid).2 k
      constructor
      · rintro (rfl | hk)
        · omega
        · have := hiff.1 hk
          omega
      · intro hk
        by_cases hkm : k = maxVerL vs cid + 1
        · exact Or.inl hkm
        · exact Or.inr (hiff.2 ⟨by omega, by omega⟩)
  · have hnums : versionNumsL
        ({ config_id := cid, version := maxVerL vs cid + 1, data_json := dj,
           change_description := cd, created_by := cb } :: vs) cid0
        = versionNumsL vs cid0 := by
      rw [versionNumsL_cons]
      simp [hc]
    have hmax : maxVerL
        ({ config_id := cid, version := maxVerL vs cid + 1, data_json := dj,
           change_description := cd, created_by := cb } :: vs) cid0
        = maxVerL vs cid0 := by
      rw [maxVerL_cons_eq]
      simp [hc]
    constructor
    · rw [hnums]
      exact (h cid0).1
    · intro k
      rw [hnums, hmax]
      exact (h cid0).2 k

lemma contiguous_filter {vs : List ConfigurationVersion} (h : ContiguousFrom1 vs)
    (cid0 : Nat) :
    ContiguousFrom1 (vs.filter (fun v => !(v.config_id == cid0))) := by
  intro cid
  by_cases hc : cid = cid0
  · subst hc
    have hmax : maxVerL (vs.filter (fun v => !(v.config_id == cid))) cid = 0 := by
      unfold maxVerL
      rw [versionNumsL_filter_self]
      rfl
    constructor
    · rw [versionNumsL_filter_self]
      exact List.nodup_nil
    · intro k
      rw [versionNumsL_filter_self, hmax]
      constructor
      · intro hk
        exact absurd hk (by simp)
      · intro hk
        exact absurd hk (by omega)
  · have hnums := versionNumsL_filter_ne vs hc
    have hmax : maxVerL (vs.filter (fun v => !(v.config_id == cid0))) cid
        = maxVerL vs cid := by
      unfold maxVerL
      rw [hnums]
    constructor
    · rw [hnums]
      exact (h cid).1
    · intro k
      rw [hnums, hmax]
      exact (h cid).2 k

lemma pairwise_versions_of_nodup : ∀ (vs : List ConfigurationVersion),
    (∀ cid, (versionNumsL vs cid).Nodup) →
    vs.Pairwise (fun v w => v.config_id = w.config_id → v.version ≠ w.version) := by
  intro vs
  induction vs with
  | nil => intro _; exact List.Pairwise.nil
  | cons v rest ih =>
    intro h
    refine List.Pairwise.cons ?_ (ih ?_)
    · intro w hw hcid hver
      have h1 := h v.config_id
      rw [versionNumsL_cons, if_pos rfl, List.nodup_cons] at h1
      apply h1.1
      rw [hver]
      exact mem_versionNumsL hw hcid.symm
    · intro cid
      have h1 := h cid
      rw [versionNumsL_cons] at h1
      by_cases hc : v.config_id = cid
      · rw [if_pos hc, List.nodup_cons] at h1
        exact h1.2
      · rw [if_neg hc] at h1
        exact h1

/-! ### Preservation of store well-formedness -/

lemma stateWF_create (st : DBState) (caller : Nat) (body : CreateBody)
    (h : StateWF st) : StateWF (create_configuration st caller body).2 := by
  obtain ⟨hc, hv, hcont⟩ := h
  simp only [create_configuration]
  by_cases h1 : strTruthy body.name = true
  case neg =>
    rw [if_pos h1]
    exact ⟨hc, hv, hcont⟩
  rw [if_neg (not_not_intro h1)]
  by_cases h2 : strTruthy body.config_type = true
  case neg =>
    rw [if_pos h2]
    exact ⟨hc, hv, hcont⟩
  rw [if_neg (not_not_intro h2)]
  by_cases h3 : body.data.isNone = true
  case pos =>
    rw [if_pos h3]
    exact ⟨hc, hv, hcont⟩
  rw [if_neg h3]
  by_cases h4 : ((validate_config_type ⟨pyStrip (body.config_type.getD "").data⟩).1
      && (validate_tags body.tags).1) = true
  case neg =>
    rw [if_pos h4]
    exact ⟨hc, hv, hcont⟩
  rw [if_neg (not_not_intro h4)]
  refine ⟨?_, ?_, ?_⟩
  · intro c hcm
    rcases List.mem_cons.1 hcm with rfl | hm
    · show st.nextConfigId < st.nextConfigId + 1
      omega
    · have := hc c hm
      show c.id < st.nextConfigId + 1
      omega
  · intro v hvm
    rcases List.mem_cons.1 hvm with rfl | hm
    · show st.nextConfigId < st.nextConfigId + 1
      omega
    · have := hv v hm
      show v.config_id < st.nextConfigId + 1
      omega
  · have hfresh : versionNumsL st.versions st.nextConfigId = [] :=
      versionNumsL_eq_nil_of_lt hv
    have hmax0 : maxVerL st.versions st.nextConfigId = 0 := by
      unfold maxVerL
      rw [hfresh]
      rfl
    have hcons := contiguous_cons_next hcont st.nextConfigId
      (body.data.getD "") "Initial version" caller
    rw [hmax0] at hcons
    exact hcons

lemma stateWF_update (st : DBState) (caller config_id : Nat) (patch : UpdatePatch)
    (h : StateWF st) : StateWF (update_configuration st caller config_id patch).2 := by
  obtain ⟨hc, hv, hcont⟩ := h
  unfold update_configuration
  by_cases h1 : patch.isEmpty = true
  · rw [if_pos h1]
    exact ⟨hc, hv, hcont⟩
  · rw [if_neg h1]
    cases hfind : findConfig st config_id with
    | none => exact ⟨hc, hv, hcont⟩
    | some config =>
      simp only []
      by_cases hu : config.user_id ≠ caller
      · rw [if_pos hu]
        exact ⟨hc, hv, hcont⟩
      · rw [if_neg hu]
        by_cases ht : (match patch.tags with
            | some tv => !(validate_tags tv).1
            | none => false) = true
        · rw [if_pos ht]
          exact ⟨hc, hv, hcont⟩
        · rw [if_neg ht]
          obtain ⟨hmem, hid⟩ := findConfig_mem hfind
          refine ⟨?_, ?_, ?_⟩
          · intro c hcm
            rw [List.mem_map] at hcm
            obtain ⟨x, hx, rfl⟩ := hcm
            by_cases hxi : (x.id == config_id) = true
            · rw [if_pos hxi]
              show (applyPatch config patch st.now).id < st.nextConfigId
              show config.id < st.nextConfigId
              exact hc config hmem
            · rw [if_neg hxi]
              exact hc x hx
          · cases hd : patch.data with
            | none =>
              simp only [hd]
              exact hv
            | some d =>
              simp only [hd]
              intro v hvm
              rcases List.mem_cons.1 hvm with rfl | hm
              · show config_id < st.nextConfigId
                rw [← hid]
                exact hc config hmem
              · exact hv v hm
          · cases hd : patch.data with
            | none =>
              simp only [hd]
              exact hcont
            | some d =>
              simp only [hd]
              exact contiguous_cons_next hcont config_id d
                (patch.change_description.getD "Configuration updated") caller

lemma stateWF_delete (st : DBState) (caller config_id : Nat) (h : StateWF st) :
    StateWF (delete_configuration st caller config_id).2 := by
  obtain ⟨hc, hv, hcont⟩ := h
  unfold delete_configuration
  cases hfind : findConfig st config_id with
  | none => exact ⟨hc, hv, hcont⟩
  | some config =>
    simp only []
    by_cases hu : config.user_id ≠ caller
    · rw [if_pos hu]
      exact ⟨hc, hv, hcont⟩
    · rw [if_neg hu]
      refine ⟨?_, ?_, ?_⟩
      · intro c hcm
        rw [List.mem_filter] at hcm
        exact hc c hcm.1
      · intro v hvm
        rw [List.mem_filter] at hvm
        exact hv v hvm.1
      · exact contiguous_filter hcont config_id

lemma stateWF_fromTemplate (st : DBState) (caller template_id : Nat)
    (h : StateWF st) : StateWF (create_from_template st caller template_id).2 := by
  obtain ⟨hc, hv, hcont⟩ := h
  unfold create_from_template
  cases hfind : findConfig st template_id with
  | none => exact ⟨hc, hv, hcont⟩
  | some template =>
    simp only []
    by_cases hT : template.is_template = true
    · rw [if_neg (not_not_intro hT)]
      refine ⟨?_, ?_, ?_⟩
      · intro c hcm
        rcases List.mem_cons.1 hcm with rfl | hm
        · show st.nextConfigId < st.nextConfigId + 1
          omega
        · have := hc c hm
          show c.id < st.nextConfigId + 1
          omega
      · intro v hvm
        rcases List.mem_cons.1 hvm with rfl | hm
        · show st.nextConfigId < st.nextConfigId + 1
          omega
        · have := hv v hm
          show v.config_id < st.nextConfigId + 1
          omega
      · have hfresh : versionNumsL st.versions st.nextConfigId = [] :=
          versionNumsL_eq_nil_of_lt hv
        have hmax0 : maxVerL st.versions st.nextConfigId = 0 := by
          unfold maxVerL
          rw [hfresh]
          rfl
        have hcons := contiguous_cons_next hcont st.nextConfigId template.data_json
          ("Created from template \"" ++ template.name ++ "\"") caller
        rw [hmax0] at hcons
        exact hcons
    · rw [if_pos hT]
      exact ⟨hc, hv, hcont⟩

lemma stateWF_stepOp (st : DBState) (op : Op) (h : StateWF st) :
    StateWF (stepOp st op) := by
  cases op with
  | create caller body => exact stateWF_create st caller body h
  | update caller config_id patch => exact stateWF_update st caller config_id patch h
  | delete caller config_id => exact stateWF_delete st caller config_id h
  | fromTemplate caller template_id => exact stateWF_fromTemplate st caller template_id h

lemma stateWF_initState : StateWF initState := by
  refine ⟨?_, ?_, contiguous_nil⟩
  · intro c hcm
    exact absurd hcm (by simp [initState])
  · intro v hvm
    exact absurd hvm (by simp [initState])

lemma stateWF_run (ops : List Op) : StateWF (run ops) := by
  unfold run
  suffices hgen : ∀ (l : List Op) (st : DBState), StateWF st → StateWF (l.foldl stepOp st) by
    exact hgen ops initState stateWF_initState
  intro l
  induction l with
  | nil => intro st h; exact h
  | cons op rest ih =>
    intro st h
    exact ih _ (stateWF_stepOp st op h)

/-! ### Inversion of the success paths -/

lemma create_success_inv {st : DBState} {caller : Nat} {body : CreateBody} {st2 : DBState}
    (h : create_configuration st caller body = (.created201, st2)) :
    ∃ d, body.data = some d ∧
      st2.versions =
        { config_id := st.nextConfigId, version := 1, data_json := d,
          change_description := "Initial version", created_by := caller } :: st.versions ∧
      ∃ cfg, st2.configs = cfg :: st.configs ∧ cfg.id = st.nextConfigId ∧
        cfg.data_json = d := by
  simp only [create_configuration] at h
  by_cases h1 : strTruthy body.name = true
  case neg =>
    rw [if_pos h1] at h
    simp at h
  rw [if_neg (not_not_intro h1)] at h
  by_cases h2 : strTruthy body.config_type = true
  case neg =>
    rw [if_pos h2] at h
    simp at h
  rw [if_neg (not_not_intro h2)] at h
  by_cases h3 : body.data.isNone = true
  case pos =>
    rw [if_pos h3] at h
    simp at h
  rw [if_neg h3] at h
  by_cases h4 : ((validate_config_type ⟨pyStrip (body.config_type.getD "").data⟩).1
      && (validate_tags body.tags).1) = true
  case neg =>
    rw [if_pos h4] at h
    simp at h
  rw [if_neg (not_not_intro h4)] at h
  obtain ⟨d, hd⟩ : ∃ d, body.data = some d := by
    cases hb : body.data with
    | none => exact absurd (by rw [hb]; rfl) h3
    | some d2 => exact ⟨d2, rfl⟩
  rw [Prod.mk.injEq] at h
  obtain ⟨-, hst⟩ := h
  subst hst
  refine ⟨d, hd, by simp [hd], ?_⟩
  exact ⟨_, rfl, rfl, by simp [hd]⟩

lemma update_data_success_inv {st : DBState} {caller config_id : Nat}
    {patch : UpdatePatch} {st2 : DBState} {d : String}
    (hd : patch.data = some d)
    (h : update_configuration st caller config_id patch = (.ok200, st2)) :
    st2.versions =
      { config_id := config_id,
        version := get_next_version_number st config_id, data_json := d,
        change_description := patch.change_description.getD "Configuration updated",
        created_by := caller } :: st.versions := by
  unfold update_configuration at h
  by_cases h1 : patch.isEmpty = true
  · rw [if_pos h1] at h
    simp at h
  · rw [if_neg h1] at h
    cases hfind : findConfig st config_id with
    | none =>
      rw [hfind] at h
      simp at h
    | some config =>
      rw [hfind] at h
      simp only [] at h
      by_cases hu : config.user_id ≠ caller
      · rw [if_pos hu] at h
        simp at h
      · rw [if_neg hu] at h
        by_cases ht : (match patch.tags with
            | some tv => !(validate_tags tv).1
            | none => false) = true
        · rw [if_pos ht] at h
          simp at h
        · rw [if_neg ht] at h
          rw [Prod.mk.injEq] at h
          obtain ⟨-, hst⟩ := h
          subst hst
          simp [hd]

lemma fromTemplate_success_inv {st : DBState} {caller template_id : Nat} {st2 : DBState}
    (h : create_from_template st caller template_id = (.created201, st2)) :
    ∃ tmpl, findConfig st template_id = some tmpl ∧ tmpl.is_template = true ∧
      st2.versions =
        { config_id := st.nextConfigId, version := 1, data_json := tmpl.data_json,
          change_description := "Created from template \"" ++ tmpl.name ++ "\"",
          created_by := caller } :: st.versions ∧
      ∃ cfg, st2.configs = cfg :: st.configs ∧ cfg.id = st.nextConfigId ∧
        cfg.data_json = tmpl.data_json := by
  unfold create_from_template at h
  cases hfind : findConfig st template_id with
  | none =>
    rw [hfind] at h
    simp at h
  | some template =>
    rw [hfind] at h
    simp only [] at h
    by_cases hT : template.is_template = true
    · rw [if_neg (not_not_intro hT)] at h
      rw [Prod.mk.injEq] at h
      obtain ⟨-, hst⟩ := h
      subst hst
      exact ⟨template, rfl, hT, rfl, ⟨_, rfl, rfl, rfl⟩⟩
    · rw [if_pos hT] at h
      simp at h

/-! ### Theorems for claim C2 -/

/-- C2 counterexample: a record instantiated from a template is created
together with its version number 1, but that version's description is
`Created from template "<name>"`, not "Initial version", refuting the
claim's universal description clause.  Concretely, instantiating the
template of `sampleState2` creates record 3 whose complete version set
is the single number 1 carrying the template description. -/
theorem version_initial_description_counterexample :
    (create_from_template sampleState2 2 2).1 = .created201 ∧
    (create_from_template sampleState2 2 2).2.configs.head?.map (fun c => c.id)
      = some 3 ∧
    versionNumsL (create_from_template sampleState2 2 2).2.versions 3 = [1] ∧
    (create_from_template sampleState2 2 2).2.versions.head?.map
      (fun v => (v.config_id, v.version, v.change_description))
      = some (3, 1, "Created from template \"TT\"") ∧
    ("Created from template \"TT\"" : String) ≠ "Initial version" := by
  refine ⟨rfl, rfl, rfl, rfl, by decide⟩

/-- C2 (amended): version numbering.  Creating a record via the plain
create route writes, together with it, version number 1 described
"Initial version" holding the record's data; instantiating a template
likewise writes version number 1 together with the new record, but
described `Created from template "<name>"`; a data-changing update
prepends a version numbered `get_next_version_number`, which is the
maximum existing number plus one (1 when no version exists); and in
every store reachable by any sequence of requests, each configuration's
version numbers are exactly the contiguous range 1..max, and no two
version rows share the same (config_id, version) pair. -/
theorem version_numbering_spec :
    (∀ st caller body st2, create_configuration st caller body = (.created201, st2) →
      ∃ d, body.data = some d ∧
        st2.versions =
          { config_id := st.nextConfigId, version := 1, data_json := d,
            change_description := "Initial version", created_by := caller } :: st.versions ∧
        ∃ cfg, st2.configs = cfg :: st.configs ∧ cfg.id = st.nextConfigId ∧
          cfg.data_json = d) ∧
    (∀ st caller template_id st2,
      create_from_template st caller template_id = (.created201, st2) →
      ∃ tmpl, findConfig st template_id = some tmpl ∧ tmpl.is_template = true ∧
        st2.versions =
          { config_id := st.nextConfigId, version := 1, data_json := tmpl.data_json,
            change_description := "Created from template \"" ++ tmpl.name ++ "\"",
            created_by := caller } :: st.versions ∧
        ∃ cfg, st2.configs = cfg :: st.configs ∧ cfg.id = st.nextConfigId ∧
          cfg.data_json = tmpl.data_json) ∧
    (∀ st caller config_id patch st2 d, patch.data = some d →
      update_configuration st caller config_id patch = (.ok200, st2) →
      st2.versions =
        { config_id := config_id,
          version := get_next_version_number st config_id, data_json := d,
          change_description := patch.change_description.getD "Configuration updated",
          created_by := caller } :: st.versions) ∧
    (∀ st config_id,
      get_next_version_number st config_id = maxVerL st.versions config_id + 1 ∧
      (versionNumsL st.versions config_id = [] →
        get_next_version_number st config_id = 1)) ∧
    (∀ ops, ContiguousFrom1 (run ops).versions ∧
      (run ops).versions.Pairwise
        (fun v w => v.config_id = w.config_id → v.version ≠ w.version)) := by
  refine ⟨?_, ?_, ?_, ?_, ?_⟩
  · intro st caller body st2 h
    exact create_success_inv h
  · intro st caller template_id st2 h
    exact fromTemplate_success_inv h
  · intro st caller config_id patch st2 d hd h
    exact update_data_success_inv hd h
  · intro st config_id
    refine ⟨rfl, ?_⟩
    intro hnil
    unfold get_next_version_number maxVerL
    rw [hnil]
    rfl
  · intro ops
    have h := (stateWF_run ops).2.2
    exact ⟨h, pairwise_versions_of_nodup _ (fun cid => (h cid).1)⟩

/-- C2 witness: a concrete successful create via
`version_numbering_spec`. -/
theorem version_numbering_spec_witness :
    ∃ d, sampleBody.data = some d ∧
      (create_configuration initState 1 sampleBody).2.versions =
        { config_id := initState.nextConfigId, version := 1, data_json := d,
          change_description := "Initial version", created_by := 1 }
          :: initState.versions ∧
      ∃ cfg, (create_configuration initState 1 sampleBody).2.configs
          = cfg :: initState.configs ∧
        cfg.id = initState.nextConfigId ∧ cfg.data_json = d :=
  version_numbering_spec.1 initState 1 sampleBody
    (create_configuration initState 1 sampleBody).2 (by decide)

end FGW
